import Mathlib

/-!
Shallow embedding of the survey-processing pipeline:
* `Consumer` embeds `src/lambda/lambda_function.py` (the SQS batch consumer),
* `Authorizer` embeds `src/lambda/authorizer.py` (the API-key gate).

Python values appearing in message payloads are modelled by `PyVal`
(strings, integers, booleans and `None`), with Python truthiness made
explicit.  External effects (the Comprehend client, the DynamoDB client,
`time.time()` and the `TTL_DAYS` environment variable) are oracles carried
in an environment record; the DynamoDB table is threaded explicitly as a
list of items keyed by partition key, `put_item` having overwrite
semantics.  Exceptions in the source are modelled as the corresponding
`Option`/branch outcomes.
-/

namespace SurveyDemo

/-- A JSON-ish Python value as it appears in a decoded message body:
`None`, a string, an integer, or a boolean.  This is the value space the
handler's field accesses (`message_body.get(...)`) can produce for the
fields the code inspects. -/
inductive PyVal where
  | none
  | str (s : String)
  | int (n : Int)
  | bool (b : Bool)
deriving DecidableEq, Repr

/-- Python truthiness of a `PyVal` (`bool(v)`): `None`, the empty string,
`0` and `False` are falsy, everything else is truthy.  This is the test
`all([...])` applies to each field in the handler's validation. -/
def truthy : PyVal → Bool
  | PyVal.none => false
  | PyVal.str s => !s.isEmpty
  | PyVal.int n => n != 0
  | PyVal.bool b => b

/-- Python `str(v)` for the modelled values, as used by the f-string
`f'SURVEY#{survey_id}'` and by `Decimal(str(rating))`. -/
def pyStr : PyVal → String
  | PyVal.none => "None"
  | PyVal.str s => s
  | PyVal.int n => toString n
  | PyVal.bool b => if b then "True" else "False"

/-- All characters of a string are decimal digits and the string is
nonempty. -/
def allDigits (s : String) : Bool :=
  !s.isEmpty && s.all Char.isDigit

/-- Mantissa of a decimal literal: digits, optionally with one dot,
with at least one digit present (`"12"`, `"12."`, `".5"`, `"3.14"`). -/
def decMantissaOk (m : String) : Bool :=
  match m.splitOn "." with
  | [a] => allDigits a
  | [a, b] => a.all Char.isDigit && b.all Char.isDigit && (!a.isEmpty || !b.isEmpty)
  | _ => false

/-- Exponent part of a decimal literal: optional sign then digits. -/
def decExpOk (e : String) : Bool :=
  let e := if e.startsWith "+" || e.startsWith "-" then e.drop 1 else e
  allDigits e

/-- Whether `decimal.Decimal(s)` succeeds on the string `s`: optional
surrounding whitespace, optional sign, then either a numeric literal with
optional exponent, or an infinity/NaN form. -/
def decStrOk (s : String) : Bool :=
  let t := (s.trim).toLower
  let t := if t.startsWith "+" || t.startsWith "-" then t.drop 1 else t
  if t == "inf" || t == "infinity" then true
  else if t.startsWith "nan" && (t.drop 3).all Char.isDigit then true
  else
    match t.splitOn "e" with
    | [m] => decMantissaOk m
    | [m, e] => decMantissaOk m && decExpOk e
    | _ => false

/-- Whether `Decimal(str(v))` succeeds (line 76 of the handler): always for
integers, by the decimal grammar for strings, never for `None`/booleans
(whose `str` images `"None"`, `"True"`, `"False"` are not decimal
literals). -/
def pyDecimalOk : PyVal → Bool
  | PyVal.none => false
  | PyVal.str s => decStrOk s
  | PyVal.int _ => true
  | PyVal.bool _ => false

namespace Consumer

/-- The decoded message body, holding the results of the five
`message_body.get(...)` accesses (lines 36-40).  A missing key yields
`PyVal.none`, exactly as `dict.get` returns `None`. -/
structure MessageBody where
  surveyId : PyVal
  customerId : PyVal
  rating : PyVal
  text : PyVal
  timestamp : PyVal
deriving DecidableEq, Repr

/-- One SQS record of the event, carrying its `messageId` and the outcome
of `json.loads(record['body'])`: `some` body when decoding yields a JSON
object, `none` when it raises (the `JSONDecodeError` path, line 98). -/
structure SqsRecord where
  messageId : String
  body : Option MessageBody
deriving DecidableEq, Repr

/-- The Comprehend `detect_sentiment` response: the `Sentiment` label and
the `SentimentScore` map, the latter carried in its serialized form since
the handler only ever stores `json.dumps(sentiment_scores)` (line 79). -/
structure SentimentResponse where
  Sentiment : String
  SentimentScore : String
deriving DecidableEq, Repr

/-- The DynamoDB item the handler writes (lines 72-83).  `rating` holds
the string handed to `Decimal` (value-preserving), `score` the serialized
score map. -/
structure Item where
  pk : String
  customerId : PyVal
  surveyId : PyVal
  rating : String
  text : PyVal
  sentiment : String
  score : String
  createdAt : Int
  expiresAt : Int
  originalTimestamp : PyVal
deriving DecidableEq, Repr

/-- The handler's environment: the Comprehend call as an oracle (success
with a response, or a raised exception with its message), the success or
failure of `table.put_item` for a given item, the current
`int(time.time())`, and the `TTL_DAYS` configuration (default 365). -/
structure Env where
  detect_sentiment : PyVal → Except String SentimentResponse
  put_item_ok : Item → Bool
  now : Int
  TTL_DAYS : Int

/-- Default of the `TTL_DAYS` environment variable (line 19). -/
def defaultTTLDays : Int := 365

/-- The DynamoDB table, as a list of items with pairwise-distinct
partition keys. -/
abbrev Table := List Item

/-- `table.put_item`: overwrite semantics on the partition key. -/
def putItem (t : Table) (it : Item) : Table :=
  it :: t.filter (fun x => x.pk != it.pk)

/-- The validation test of line 43: `all([survey_id, customer_id, rating,
text])` under Python truthiness. -/
def validationPasses (mb : MessageBody) : Bool :=
  truthy mb.surveyId && truthy mb.customerId && truthy mb.rating && truthy mb.text

/-- Outcome of processing one record: the item written (`none` when the
record fell into any failure branch), together with how many Comprehend
calls and how many `put_item` calls the record caused. -/
structure RecTrace where
  result : Option Item
  classifyCalls : Nat
  putCalls : Nat
deriving DecidableEq, Repr

/-- The body of the per-record `try` block (lines 31-109): parse, validate
(line 43), classify (lines 51-65), compute `created_at`/`expires_at`
(lines 67-69), build the item (lines 72-83, where `Decimal(str(rating))`
may raise into the generic handler of line 104), and write (lines 86-96).
Every failure branch appends the record's `messageId` and continues, which
here is `result := none`. -/
def runRecord (env : Env) (r : SqsRecord) : RecTrace :=
  match r.body with
  | Option.none => ⟨Option.none, 0, 0⟩
  | Option.some mb =>
    if !validationPasses mb then ⟨Option.none, 0, 0⟩
    else
      match env.detect_sentiment mb.text with
      | Except.error _ => ⟨Option.none, 1, 0⟩
      | Except.ok resp =>
        let created_at := env.now
        let expires_at := created_at + env.TTL_DAYS * 24 * 60 * 60
        if !pyDecimalOk mb.rating then ⟨Option.none, 1, 0⟩
        else
          let item : Item :=
            { pk := "SURVEY#" ++ pyStr mb.surveyId
              customerId := mb.customerId
              surveyId := mb.surveyId
              rating := pyStr mb.rating
              text := mb.text
              sentiment := resp.Sentiment
              score := resp.SentimentScore
              createdAt := created_at
              expiresAt := expires_at
              originalTimestamp := mb.timestamp }
          if env.put_item_ok item then ⟨Option.some item, 1, 1⟩
          else ⟨Option.none, 1, 1⟩

/-- Aggregate outcome of the loop over `event['Records']`: the
`batch_item_failures` identifiers in order, the final table, and the total
external-call counts. -/
structure BatchTrace where
  failures : List String
  table : Table
  classifyCalls : Nat
  putCalls : Nat
deriving DecidableEq, Repr

/-- The `for record in event.get('Records', [])` loop (lines 30-109),
threading the table and accumulating `batch_item_failures`. -/
def processRecords (env : Env) : List SqsRecord → Table → BatchTrace
  | [], t => ⟨[], t, 0, 0⟩
  | r :: rs, t =>
    let tr := runRecord env r
    match tr.result with
    | Option.none =>
      let b := processRecords env rs t
      ⟨r.messageId :: b.failures, b.table, tr.classifyCalls + b.classifyCalls,
        tr.putCalls + b.putCalls⟩
    | Option.some it =>
      let b := processRecords env rs (putItem t it)
      ⟨b.failures, b.table, tr.classifyCalls + b.classifyCalls,
        tr.putCalls + b.putCalls⟩

/-- The Lambda event: `Records` is `none` when the key is absent
(`event.get('Records', [])` then yields the empty list). -/
structure SqsEvent where
  Records : Option (List SqsRecord)
deriving DecidableEq, Repr

/-- The handler's return value: either
`{'batchItemFailures': [{'itemIdentifier': id}, ...]}` (modelled as the
list of identifiers) or `{'statusCode': 200, 'body': ...}`. -/
structure Response where
  statusCode : Option Int
  body : Option String
  batchItemFailures : Option (List String)
deriving DecidableEq, Repr

/-- The full-success return value of lines 117-120. -/
def successResponse : Response :=
  { statusCode := Option.some 200
    body := Option.some "Successfully processed all records"
    batchItemFailures := Option.none }

/-- `lambda_handler` (lines 22-120): run the loop, then return the
failure report if any failures accumulated, else the success response.
Also yields the final table state. -/
def lambda_handler (env : Env) (event : SqsEvent) (t : Table) : Response × Table :=
  let b := processRecords env (event.Records.getD []) t
  if !b.failures.isEmpty then
    ({ statusCode := Option.none, body := Option.none
       batchItemFailures := Option.some b.failures }, b.table)
  else (successResponse, b.table)

/-- The identifiers a batch contributes to `batchItemFailures`: one entry
per record whose processing failed, in batch order. -/
def failIds (env : Env) (rs : List SqsRecord) : List String :=
  rs.filterMap (fun r => if (runRecord env r).result.isNone then Option.some r.messageId else Option.none)

/-- The failure list of a response (`[]` when the key is absent). -/
def respFailures (resp : Response) : List String :=
  resp.batchItemFailures.getD []

end Consumer

namespace Authorizer

/-- The required fields list of `authorizer.py` line 8. -/
def REQUIRED_FIELDS : List String :=
  ["surveyId", "customerId", "rating", "text", "timestamp"]

/-- The request body as seen by the authorizer's best-effort check
(lines 38-48): absent or falsy (the `if body:` guard skips the block),
undecodable (the `json.loads`/`in` raise path), or decoded to an object
whose key set is `fields`. -/
inductive AuthBody where
  | absent
  | invalidJson
  | json (fields : List String)
deriving DecidableEq, Repr

/-- One diagnostic `print` of the authorizer. -/
inductive LogEntry where
  | ssmError (msg : String)
  | missingFields (fields : List String)
  | invalidJson
deriving DecidableEq, Repr

/-- The authorizer's invocation event: the route/method ARNs, the
`headers` object, the `requestContext.http.headers` fallback object
(each `none` when the key path is absent), and the request body. -/
structure AuthEvent where
  routeArn : Option String
  methodArn : Option String
  headers : Option (List (String × String))
  rcHttpHeaders : Option (List (String × String))
  body : AuthBody
deriving DecidableEq, Repr

/-- The authorizer's environment: the outcome of
`ssm.get_parameter(...)`, i.e. the stored secret value or a raised
exception's message. -/
structure AuthEnv where
  ssm : Except String String

/-- The IAM policy built by `generate_policy` (lines 55-70), flattening
the constant wrapper (`Version`, the single `Statement`, `Action`). -/
structure Policy where
  principalId : String
  Version : String
  Action : String
  Effect : String
  Resource : String
deriving DecidableEq, Repr

/-- `generate_policy(principal_id, effect, resource)`. -/
def generate_policy (principal_id effect resource : String) : Policy :=
  { principalId := principal_id
    Version := "2012-10-17"
    Action := "execute-api:Invoke"
    Effect := effect
    Resource := resource }

/-- `event.get('routeArn', event.get('methodArn', '*'))` (lines 24, 32
and 51). -/
def routeArnOf (e : AuthEvent) : String :=
  e.routeArn.getD (e.methodArn.getD "*")

/-- Line 27: `event.get('headers', {}) or event.get('requestContext',
{}).get('http', {}).get('headers', {})` — the second operand is used when
the first is absent or an empty (falsy) object. -/
def effectiveHeaders (e : AuthEvent) : List (String × String) :=
  let a := e.headers.getD []
  if a.isEmpty then e.rcHttpHeaders.getD [] else a

/-- Python `or` on optional strings: the left operand when truthy
(present and nonempty), else the right. -/
def pyOrStr (a b : Option String) : Option String :=
  match a with
  | Option.some s => if !s.isEmpty then Option.some s else b
  | Option.none => b

/-- Line 29: `headers.get('x-api-key') or headers.get('X-Api-Key') or
headers.get('X-API-Key')`. -/
def apiKeyRaw (e : AuthEvent) : Option String :=
  let hs := effectiveHeaders e
  pyOrStr (hs.lookup "x-api-key") (pyOrStr (hs.lookup "X-Api-Key") (hs.lookup "X-API-Key"))

/-- Truthiness of the extracted `api_key` (`not api_key` on line 31):
`None` and the empty string are falsy. -/
def strTruthy : Option String → Bool
  | Option.some s => !s.isEmpty
  | Option.none => false

/-- The best-effort body check of lines 38-48: it only ever prints; its
result has no effect on the returned policy. -/
def bodyLogs : AuthBody → List LogEntry
  | AuthBody.absent => []
  | AuthBody.invalidJson => [LogEntry.invalidJson]
  | AuthBody.json fields =>
    let missing := REQUIRED_FIELDS.filter (fun f => !fields.contains f)
    if missing.isEmpty then [] else [LogEntry.missingFields missing]

/-- `lambda_handler` of `authorizer.py` (lines 11-52): Deny when the SSM
fetch raises; Deny when `not api_key or api_key != valid_api_key`
(line 31); otherwise run the logging-only body check and Allow.  The
second component collects the diagnostic prints. -/
def lambda_handler (env : AuthEnv) (event : AuthEvent) : Policy × List LogEntry :=
  match env.ssm with
  | Except.error e =>
    (generate_policy "user" "Deny" (routeArnOf event), [LogEntry.ssmError e])
  | Except.ok valid_api_key =>
    let api_key := apiKeyRaw event
    if strTruthy api_key && api_key == Option.some valid_api_key then
      (generate_policy "user" "Allow" (routeArnOf event), bodyLogs event.body)
    else
      (generate_policy "user" "Deny" (routeArnOf event), [])

end Authorizer

namespace Consumer

/-- Well-formedness of the table: pairwise-distinct partition keys, each
derived from the item's own `surveyId` by the handler's key scheme. -/
def TableWf (t : Table) : Prop :=
  (t.map (fun it => it.pk)).Nodup ∧ ∀ it ∈ t, it.pk = "SURVEY#" ++ pyStr it.surveyId

/-- A claim-side reading of "present and non-empty/non-null": the field is
not `None` and, when a string, not empty.  (Numbers and booleans are
present values whatever their content.) -/
def presentAndNonEmpty : PyVal → Bool
  | PyVal.none => false
  | PyVal.str s => !s.isEmpty
  | PyVal.int _ => true
  | PyVal.bool _ => true

/-- A concrete healthy environment: the classifier always answers
`POSITIVE`, every write succeeds, fixed processing time, default TTL. -/
def envW : Env :=
  { detect_sentiment := fun _ => Except.ok ⟨"POSITIVE", "scores"⟩
    put_item_ok := fun _ => true
    now := 1704067200
    TTL_DAYS := 365 }

/-- A concrete environment whose classifier always raises. -/
def envFail : Env :=
  { detect_sentiment := fun _ => Except.error "ServiceUnavailable"
    put_item_ok := fun _ => true
    now := 1704067200
    TTL_DAYS := 365 }

/-- A complete, valid survey submission body. -/
def mbW : MessageBody :=
  { surveyId := PyVal.str "s1"
    customerId := PyVal.str "c1"
    rating := PyVal.int 5
    text := PyVal.str "Great service!"
    timestamp := PyVal.str "2024-01-01T00:00:00Z" }

/-- A body whose `rating` is the number `0`: every required field is
present, non-empty and non-null, yet `0` is falsy in Python. -/
def mbZero : MessageBody :=
  { surveyId := PyVal.str "s1"
    customerId := PyVal.str "c2"
    rating := PyVal.int 0
    text := PyVal.str "ok"
    timestamp := PyVal.none }

/-- A healthy record. -/
def rW : SqsRecord := ⟨"m1", Option.some mbW⟩

/-- A record whose body does not decode. -/
def rBad : SqsRecord := ⟨"m2", Option.none⟩

/-- The item `runRecord envW rW` persists. -/
def itW : Item :=
  { pk := "SURVEY#s1"
    customerId := PyVal.str "c1"
    surveyId := PyVal.str "s1"
    rating := "5"
    text := PyVal.str "Great service!"
    sentiment := "POSITIVE"
    score := "scores"
    createdAt := 1704067200
    expiresAt := 1735603200
    originalTimestamp := PyVal.str "2024-01-01T00:00:00Z" }

end Consumer

namespace Authorizer

/-- A request event supplying the API key `sek` in its headers. -/
def evAllow : AuthEvent :=
  { routeArn := Option.some "arn:aws:execute-api:r1"
    methodArn := Option.none
    headers := Option.some [("x-api-key", "sek")]
    rcHttpHeaders := Option.none
    body := AuthBody.absent }

/-- A request event supplying an empty `x-api-key` header value. -/
def evEmptyKey : AuthEvent :=
  { routeArn := Option.none
    methodArn := Option.none
    headers := Option.some [("x-api-key", "")]
    rcHttpHeaders := Option.none
    body := AuthBody.absent }

end Authorizer

namespace Consumer

/-- The failure list accumulated by the loop does not depend on the table
threaded through it: it is the per-record map over the batch. -/
theorem processRecords_failures (env : Env) (rs : List SqsRecord) (t : Table) :
    (processRecords env rs t).failures = failIds env rs := by
  induction rs generalizing t with
  | nil => rfl
  | cons r rs ih =>
    cases h : (runRecord env r).result with
    | none =>
      have ih' := ih t
      simp only [failIds] at ih' ⊢
      simp [processRecords, h, List.filterMap_cons, ih']
    | some it =>
      have ih' := ih (putItem t it)
      simp only [failIds] at ih' ⊢
      simp [processRecords, h, List.filterMap_cons, ih']

/-- The handler's reported failure identifiers are exactly `failIds` of
the event's records. -/
theorem handler_respFailures (env : Env) (ev : SqsEvent) (t : Table) :
    respFailures (lambda_handler env ev t).fst = failIds env (ev.Records.getD []) := by
  have hf := processRecords_failures env (ev.Records.getD []) t
  unfold lambda_handler
  cases he : (processRecords env (ev.Records.getD []) t).failures.isEmpty with
  | true =>
    have hnil : failIds env (ev.Records.getD []) = [] := by
      rw [← hf]; exact List.isEmpty_iff.mp he
    simp [he, respFailures, successResponse, hnil]
  | false =>
    have hne : failIds env (ev.Records.getD []) ≠ [] := by
      rw [← hf]
      intro hEq
      rw [hEq] at he
      simp at he
    simp [he, respFailures, hf, hne]

/-- The final table does not depend on which records failed around a
failing record: a record whose processing fails contributes nothing to
the table. -/
theorem processRecords_table_skip (env : Env) (r : SqsRecord)
    (hr : (runRecord env r).result = Option.none) :
    ∀ (pre post : List SqsRecord) (t : Table),
      (processRecords env (pre ++ r :: post) t).table
        = (processRecords env (pre ++ post) t).table := by
  intro pre
  induction pre with
  | nil =>
    intro post t
    simp only [List.nil_append, processRecords, hr]
  | cons a pre ih =>
    intro post t
    simp only [List.cons_append, processRecords]
    cases h : (runRecord env a).result with
    | none => exact ih post t
    | some it => exact ih post (putItem t it)

/-- Membership in `failIds`: exactly the identifiers of failing records. -/
theorem mem_failIds (env : Env) (rs : List SqsRecord) (x : String) :
    x ∈ failIds env rs
      ↔ ∃ r ∈ rs, r.messageId = x ∧ (runRecord env r).result = Option.none := by
  simp only [failIds, List.mem_filterMap]
  constructor
  · rintro ⟨r, hr, hx⟩
    cases h : (runRecord env r).result with
    | none =>
      simp only [h, Option.isNone_none, if_pos, Option.some.injEq] at hx
      exact ⟨r, hr, hx, h⟩
    | some it => simp [h] at hx
  · rintro ⟨r, hr, hx, h⟩
    exact ⟨r, hr, by simp [h, hx]⟩

/-- Counting occurrences in `failIds` under batch-unique identifiers:
a failing record's identifier occurs once, a succeeding one's never. -/
theorem count_failIds (env : Env) (rs : List SqsRecord)
    (hnd : (rs.map (fun r => r.messageId)).Nodup) (r : SqsRecord) (hr : r ∈ rs) :
    (failIds env rs).count r.messageId
      = if (runRecord env r).result = Option.none then 1 else 0 := by
  induction rs with
  | nil => cases hr
  | cons a rs ih =>
    rw [List.map_cons, List.nodup_cons] at hnd
    have hstep : failIds env (a :: rs)
        = (if (runRecord env a).result.isNone then [a.messageId] else []) ++ failIds env rs := by
      simp only [failIds, List.filterMap_cons]
      cases h : (runRecord env a).result <;> simp [h]
    cases List.mem_cons.mp hr with
    | inl heq =>
      subst heq
      have hnot : r.messageId ∉ failIds env rs := by
        intro hmem
        rcases (mem_failIds env rs r.messageId).mp hmem with ⟨s, hs, hsx, _⟩
        exact hnd.1 (hsx ▸ List.mem_map_of_mem (fun q => q.messageId) hs)
      rw [hstep, List.count_append, List.count_eq_zero.mpr hnot]
      cases h : (runRecord env r).result <;> simp [h]
    | inr hmem =>
      have hne : a.messageId ≠ r.messageId := by
        intro hEq
        exact hnd.1 (hEq ▸ List.mem_map_of_mem (fun q => q.messageId) hmem)
      rw [hstep, List.count_append, ih hnd.2 hmem]
      cases h : (runRecord env a).result <;>
        simp [h, List.count_cons, hne]

/-- Characterization of a successful record: the written item is exactly
the one built on lines 72-83, and every guard on the way passed. -/
theorem runRecord_some (env : Env) (id : String) (mb : MessageBody) (it : Item)
    (h : (runRecord env ⟨id, Option.some mb⟩).result = Option.some it) :
    ∃ resp, validationPasses mb = true
      ∧ env.detect_sentiment mb.text = Except.ok resp
      ∧ pyDecimalOk mb.rating = true
      ∧ it = { pk := "SURVEY#" ++ pyStr mb.surveyId
               customerId := mb.customerId
               surveyId := mb.surveyId
               rating := pyStr mb.rating
               text := mb.text
               sentiment := resp.Sentiment
               score := resp.SentimentScore
               createdAt := env.now
               expiresAt := env.now + env.TTL_DAYS * 24 * 60 * 60
               originalTimestamp := mb.timestamp }
      ∧ env.put_item_ok it = true := by
  simp only [runRecord] at h
  cases hv : validationPasses mb with
  | false => simp [hv] at h
  | true =>
    simp only [hv, Bool.not_true, Bool.false_eq_true, if_false] at h
    cases hc : env.detect_sentiment mb.text with
    | error e => simp [hc] at h
    | ok resp =>
      simp only [hc] at h
      cases hd : pyDecimalOk mb.rating with
      | false => simp [hd] at h
      | true =>
        simp only [hd, Bool.not_true, Bool.false_eq_true, if_false] at h
        cases hp : env.put_item_ok
            { pk := "SURVEY#" ++ pyStr mb.surveyId
              customerId := mb.customerId
              surveyId := mb.surveyId
              rating := pyStr mb.rating
              text := mb.text
              sentiment := resp.Sentiment
              score := resp.SentimentScore
              createdAt := env.now
              expiresAt := env.now + env.TTL_DAYS * 24 * 60 * 60
              originalTimestamp := mb.timestamp } with
        | false => simp [hp] at h
        | true =>
          simp only [hp, if_pos, Option.some.injEq] at h
          refine ⟨resp, rfl, rfl, rfl, h.symm, ?_⟩
          rw [← h]
          exact hp

/-- A record whose body failed to decode writes nothing and calls no
external service. -/
theorem runRecord_noBody (env : Env) (id : String) :
    runRecord env ⟨id, Option.none⟩ = ⟨Option.none, 0, 0⟩ := rfl

/-- `put_item` preserves table well-formedness when the new item's key is
derived from its `surveyId`. -/
theorem putItem_wf (t : Table) (it : Item) (hw : TableWf t)
    (hk : it.pk = "SURVEY#" ++ pyStr it.surveyId) : TableWf (putItem t it) := by
  constructor
  · rw [putItem, List.map_cons, List.nodup_cons]
    constructor
    · intro hmem
      rcases List.mem_map.mp hmem with ⟨x, hx, hpk⟩
      have := List.of_mem_filter hx
      simp only [bne_iff_ne, ne_eq, decide_eq_true_eq] at this
      exact this hpk
    · exact List.Nodup.sublist ((List.filter_sublist t).map (fun q => q.pk)) hw.1
  · intro x hx
    rcases List.mem_cons.mp hx with hEq | hmem
    · exact hEq ▸ hk
    · exact hw.2 x (List.mem_of_mem_filter hmem)

/-- The loop preserves table well-formedness. -/
theorem processRecords_wf (env : Env) (rs : List SqsRecord) (t : Table)
    (hw : TableWf t) : TableWf (processRecords env rs t).table := by
  induction rs generalizing t with
  | nil => exact hw
  | cons r rs ih =>
    cases h : (runRecord env r).result with
    | none =>
      simp only [processRecords, h]
      exact ih t hw
    | some it =>
      simp only [processRecords, h]
      have hk : it.pk = "SURVEY#" ++ pyStr it.surveyId := by
        cases r with
        | mk id body =>
          cases body with
          | none => rw [runRecord_noBody] at h; cases h
          | some mb =>
            rcases runRecord_some env id mb it h with ⟨resp, _, _, _, hit, _⟩
            rw [hit]
      exact ih (putItem t it) (putItem_wf t it hw hk)

/-- In a well-formed table at most one item carries any given
`surveyId`. -/
theorem wf_count (t : Table) (hw : TableWf t) (v : PyVal) :
    (t.filter (fun it => it.surveyId == v)).length ≤ 1 := by
  induction t with
  | nil => simp
  | cons x t ih =>
    have hw' : TableWf t := ⟨(List.nodup_cons.mp hw.1).2,
      fun it hit => hw.2 it (List.mem_cons_of_mem x hit)⟩
    cases hx : (x.surveyId == v) with
    | false => simpa [List.filter_cons, hx] using ih hw'
    | true =>
      have hxv : x.surveyId = v := beq_iff_eq.mp hx
      have hnil : t.filter (fun it => it.surveyId == v) = [] := by
        rw [List.eq_nil_iff_forall_not_mem]
        intro y hy
        have hyt := List.mem_of_mem_filter hy
        have hyb := List.of_mem_filter hy
        have hyv : y.surveyId = v := by simpa using hyb
        have hpk : y.pk = x.pk := by
          rw [hw.2 y (List.mem_cons_of_mem x hyt), hw.2 x (List.mem_cons_self x t),
            hyv, hxv]
        have hmem : y.pk ∈ t.map (fun q => q.pk) :=
          List.mem_map_of_mem (fun q => q.pk) hyt
        rw [hpk] at hmem
        exact (List.nodup_cons.mp hw.1).1 hmem
      simp [List.filter_cons, hx, hnil]

/-- Both return branches of the handler carry the loop's final table. -/
theorem handler_table (env : Env) (ev : SqsEvent) (t : Table) :
    (lambda_handler env ev t).snd = (processRecords env (ev.Records.getD []) t).table := by
  unfold lambda_handler
  cases he : (processRecords env (ev.Records.getD []) t).failures.isEmpty <;> simp [he]

/-- C1: the handler always returns a Batch Outcome and processes every
envelope independently: for any batch split as `pre ++ r :: post`, the
reported failure identifiers are exactly the per-envelope failure
identifiers of `pre`, of `r` alone, and of `post`, concatenated — a
failure of `r` at any stage neither aborts nor perturbs the processing of
the other envelopes; and in general the reported list is the independent
per-record map over the batch. -/
theorem C1_single_failure_never_aborts_batch (env : Env) (t : Table)
    (pre post : List SqsRecord) (r : SqsRecord) (ev : SqsEvent) :
    respFailures (lambda_handler env ⟨Option.some (pre ++ r :: post)⟩ t).fst
      = failIds env pre ++ failIds env [r] ++ failIds env post
  ∧ respFailures (lambda_handler env ev t).fst = failIds env (ev.Records.getD []) := by
  constructor
  · rw [handler_respFailures env ⟨Option.some (pre ++ r :: post)⟩ t]
    show failIds env (pre ++ r :: post) = _
    cases h : (runRecord env r).result with
    | none => simp [failIds, List.filterMap_append, List.filterMap_cons, h]
    | some it => simp [failIds, List.filterMap_append, List.filterMap_cons, h]
  · exact handler_respFailures env ev t

/-- C2: under batch-unique identifiers, an identifier is reported exactly
once when its envelope failed and never otherwise, every reported
identifier belongs to a failing envelope of the batch, and a batch with
no failing envelope yields the success response (whose
`batchItemFailures` key is absent). -/
theorem C2_failure_list_exact (env : Env) (t : Table) (rs : List SqsRecord)
    (hnd : (rs.map (fun r => r.messageId)).Nodup) :
    (∀ r ∈ rs, (runRecord env r).result = Option.none →
      (respFailures (lambda_handler env ⟨Option.some rs⟩ t).fst).count r.messageId = 1)
  ∧ (∀ r ∈ rs, (runRecord env r).result ≠ Option.none →
      (respFailures (lambda_handler env ⟨Option.some rs⟩ t).fst).count r.messageId = 0)
  ∧ (∀ x ∈ respFailures (lambda_handler env ⟨Option.some rs⟩ t).fst,
      ∃ r ∈ rs, r.messageId = x ∧ (runRecord env r).result = Option.none)
  ∧ ((∀ r ∈ rs, (runRecord env r).result ≠ Option.none) →
      (lambda_handler env ⟨Option.some rs⟩ t).fst = successResponse) := by
  have hresp : respFailures (lambda_handler env ⟨Option.some rs⟩ t).fst = failIds env rs :=
    handler_respFailures env ⟨Option.some rs⟩ t
  refine ⟨?_, ?_, ?_, ?_⟩
  · intro r hr hfail
    rw [hresp, count_failIds env rs hnd r hr, if_pos hfail]
  · intro r hr hsucc
    rw [hresp, count_failIds env rs hnd r hr, if_neg hsucc]
  · intro x hx
    rw [hresp] at hx
    exact (mem_failIds env rs x).mp hx
  · intro hall
    have hnil : failIds env rs = [] := by
      rw [List.eq_nil_iff_forall_not_mem]
      intro x hmem
      rcases (mem_failIds env rs x).mp hmem with ⟨r, hr, _, hfail⟩
      exact hall r hr hfail
    have hfl : (processRecords env rs t).failures = [] :=
      (processRecords_failures env rs t).trans hnil
    unfold lambda_handler
    simp [Option.getD_some, hfl]

/-- Witness for C2 at a two-record batch with one undecodable body:
the failing record's identifier is counted exactly once. -/
theorem C2_witness :
    (respFailures (lambda_handler envW ⟨Option.some [rW, rBad]⟩ []).fst).count "m2" = 1 :=
  (C2_failure_list_exact envW [] [rW, rBad] (by decide)).1 rBad (by decide) (by decide)

/-- C9: an event with no `Records` key, or with an empty record list,
yields the full-success response (status 200, no `batchItemFailures`),
leaves the table untouched, and performs no classifier or store call. -/
theorem C9_empty_batch_success (env : Env) (t : Table) :
    lambda_handler env ⟨Option.none⟩ t = (successResponse, t)
  ∧ lambda_handler env ⟨Option.some []⟩ t = (successResponse, t)
  ∧ processRecords env [] t = ⟨[], t, 0, 0⟩ :=
  ⟨rfl, rfl, rfl⟩

/-- C3 (amended): for a decoded body, the classifier is invoked exactly
when all four required fields are Python-truthy (non-null, non-empty, and
also non-zero/non-`False`); when the truthiness check fails the envelope
is recorded as failed, no store call is made and the table is unchanged;
the `timestamp` field plays no role in the check. -/
theorem C3_validation_gates_processing (env : Env) (t : Table) (id : String)
    (mb : MessageBody) (ts : PyVal) :
    ((runRecord env ⟨id, Option.some mb⟩).classifyCalls
        = if validationPasses mb then 1 else 0)
  ∧ (validationPasses mb = false →
        (runRecord env ⟨id, Option.some mb⟩).result = Option.none
      ∧ (runRecord env ⟨id, Option.some mb⟩).putCalls = 0
      ∧ (processRecords env [⟨id, Option.some mb⟩] t).table = t
      ∧ (processRecords env [⟨id, Option.some mb⟩] t).failures = [id])
  ∧ validationPasses { mb with timestamp := ts } = validationPasses mb := by
  refine ⟨?_, ?_, rfl⟩
  · cases hv : validationPasses mb with
    | false => simp [runRecord, hv]
    | true =>
      simp only [runRecord, hv, Bool.not_true, Bool.false_eq_true, if_false, if_true]
      cases hc : env.detect_sentiment mb.text with
      | error e => rfl
      | ok resp =>
        cases hd : pyDecimalOk mb.rating with
        | false => simp [hd]
        | true =>
          simp only [hd, Bool.not_true, Bool.false_eq_true, if_false]
          split <;> rfl
  · intro hv
    have h0 : runRecord env ⟨id, Option.some mb⟩ = ⟨Option.none, 0, 0⟩ := by
      simp [runRecord, hv]
    refine ⟨by rw [h0], by rw [h0], ?_, ?_⟩
    · simp [processRecords, h0]
    · simp [processRecords, h0]

/-- Witness for C3 at the body with `rating = 0`. -/
theorem C3_witness :
    (runRecord envW ⟨"m3", Option.some mbZero⟩).result = Option.none :=
  ((C3_validation_gates_processing envW [] "m3" mbZero PyVal.none).2.1 (by decide)).1

/-- Counterexample to C3 as stated: in `mbZero` all four required fields
are present, non-empty and non-null (the rating is the number `0`), yet
validation rejects the submission and the classifier is never invoked,
because the code tests Python truthiness and `0` is falsy. -/
theorem C3_counterexample :
    (presentAndNonEmpty mbZero.surveyId && presentAndNonEmpty mbZero.customerId
      && presentAndNonEmpty mbZero.rating && presentAndNonEmpty mbZero.text) = true
  ∧ validationPasses mbZero = false
  ∧ (runRecord envW ⟨"m3", Option.some mbZero⟩).result = Option.none
  ∧ (runRecord envW ⟨"m3", Option.some mbZero⟩).classifyCalls = 0 := by
  decide

/-- C4: every persisted record's expiry watermark sits exactly
`TTL_DAYS * 24 * 60 * 60` seconds after its `createdAt`, for every
environment alike; with the default configuration the gap is exactly 365
days in seconds. -/
theorem C4_ttl_exact (env : Env) (r : SqsRecord) (it : Item)
    (h : (runRecord env r).result = Option.some it) :
    it.expiresAt - it.createdAt = env.TTL_DAYS * 24 * 60 * 60
  ∧ (env.TTL_DAYS = defaultTTLDays →
      it.expiresAt - it.createdAt = 365 * 24 * 60 * 60) := by
  cases r with
  | mk id body =>
    cases body with
    | none => rw [runRecord_noBody] at h; cases h
    | some mb =>
      rcases runRecord_some env id mb it h with ⟨resp, _, _, _, hit, _⟩
      rw [hit]
      constructor
      · simp
      · intro hd
        simp [hd, defaultTTLDays]

/-- Witness for C4 at the healthy record. -/
theorem C4_witness : itW.expiresAt - itW.createdAt = 365 * 24 * 60 * 60 :=
  (C4_ttl_exact envW rW itW (by decide)).2 (by decide)

/-- C5: the store key is `SURVEY#` followed by the `surveyId` alone (so
the same `surveyId` always re-derives the same key), and from any
well-formed table the handler leaves a well-formed table in which at most
one record exists per `surveyId` — reprocessing overwrites instead of
duplicating. -/
theorem C5_key_deterministic_no_duplicates (env : Env) (rs : List SqsRecord)
    (t : Table) (h : TableWf t) :
    (∀ (id : String) (mb : MessageBody) (it : Item),
        (runRecord env ⟨id, Option.some mb⟩).result = Option.some it →
          it.pk = "SURVEY#" ++ pyStr mb.surveyId ∧ it.surveyId = mb.surveyId)
  ∧ TableWf (lambda_handler env ⟨Option.some rs⟩ t).snd
  ∧ ∀ v, (((lambda_handler env ⟨Option.some rs⟩ t).snd).filter
        (fun it => it.surveyId == v)).length ≤ 1 := by
  have hw : TableWf (processRecords env rs t).table := processRecords_wf env rs t h
  have ht : (lambda_handler env ⟨Option.some rs⟩ t).snd
      = (processRecords env rs t).table := handler_table env ⟨Option.some rs⟩ t
  refine ⟨?_, ?_, ?_⟩
  · intro id mb it hres
    rcases runRecord_some env id mb it hres with ⟨resp, _, _, _, hit, _⟩
    rw [hit]
    exact ⟨rfl, rfl⟩
  · rw [ht]
    exact hw
  · intro v
    rw [ht]
    exact wf_count _ hw v

/-- Witness for C5: replaying the same record twice leaves at most one
item for its `surveyId`. -/
theorem C5_witness :
    ((lambda_handler envW ⟨Option.some [rW, rW]⟩ []).snd.filter
      (fun it => it.surveyId == PyVal.str "s1")).length ≤ 1 :=
  (C5_key_deterministic_no_duplicates envW [rW, rW] []
    ⟨List.nodup_nil, by simp⟩).2.2 (PyVal.str "s1")

/-- C6: when a valid envelope's classifier call fails, exactly that
envelope is recorded as failed after a single classifier call, no store
call is issued for it, the table ends as if the envelope had not been in
the batch, and the other envelopes' failure entries are unchanged. -/
theorem C6_classifier_failure_isolated (env : Env) (t : Table)
    (pre post : List SqsRecord) (id : String) (mb : MessageBody) (e : String)
    (hv : validationPasses mb = true)
    (hc : env.detect_sentiment mb.text = Except.error e) :
    (runRecord env ⟨id, Option.some mb⟩).result = Option.none
  ∧ (runRecord env ⟨id, Option.some mb⟩).putCalls = 0
  ∧ (runRecord env ⟨id, Option.some mb⟩).classifyCalls = 1
  ∧ (processRecords env (pre ++ ⟨id, Option.some mb⟩ :: post) t).failures
      = failIds env pre ++ id :: failIds env post
  ∧ (processRecords env (pre ++ ⟨id, Option.some mb⟩ :: post) t).table
      = (processRecords env (pre ++ post) t).table := by
  have h0 : runRecord env ⟨id, Option.some mb⟩ = ⟨Option.none, 1, 0⟩ := by
    simp [runRecord, hv, hc]
  refine ⟨by rw [h0], by rw [h0], by rw [h0], ?_, ?_⟩
  · rw [processRecords_failures]
    simp [failIds, List.filterMap_append, List.filterMap_cons, h0]
  · exact processRecords_table_skip env ⟨id, Option.some mb⟩ (by rw [h0]) pre post t

/-- Witness for C6 at the failing-classifier environment. -/
theorem C6_witness :
    (runRecord envFail ⟨"m1", Option.some mbW⟩).result = Option.none :=
  (C6_classifier_failure_isolated envFail [] [] [] "m1" mbW
    "ServiceUnavailable" rfl rfl).1

/-- C7: `createdAt` is the consumer's processing time and `expiresAt`
follows from it and the retention alone; two persisted runs over bodies
differing only in `timestamp` yield items identical except for the
propagated `originalTimestamp`, which carries the caller's value
unchanged. -/
theorem C7_timestamps_from_processing_time (env : Env) (idA idB : String)
    (mb : MessageBody) (ts : PyVal) (itA itB : Item)
    (hA : (runRecord env ⟨idA, Option.some mb⟩).result = Option.some itA)
    (hB : (runRecord env ⟨idB, Option.some { mb with timestamp := ts }⟩).result
      = Option.some itB) :
    itB.createdAt = itA.createdAt
  ∧ itB.expiresAt = itA.expiresAt
  ∧ itB = { itA with originalTimestamp := ts }
  ∧ itA.createdAt = env.now
  ∧ itA.originalTimestamp = mb.timestamp := by
  rcases runRecord_some env idA mb itA hA with ⟨respA, _, hcA, _, hitA, _⟩
  rcases runRecord_some env idB _ itB hB with ⟨respB, _, hcB, _, hitB, _⟩
  have hcB' : env.detect_sentiment mb.text = Except.ok respB := hcB
  rw [hcA] at hcB'
  injection hcB' with hresp
  subst hresp
  rw [hitA, hitB]
  exact ⟨rfl, rfl, rfl, rfl, rfl⟩

/-- Witness for C7: the healthy record and its timestamp-perturbed twin. -/
theorem C7_witness : itW.createdAt = envW.now :=
  (C7_timestamps_from_processing_time envW "m1" "m9" mbW (PyVal.str "x") itW
    { itW with originalTimestamp := PyVal.str "x" }
    (by decide) (by decide)).2.2.2.1

end Consumer

namespace Authorizer

/-- The extracted key is truthy exactly for a nonempty header value. -/
theorem strTruthy_some_iff (o : Option String) :
    strTruthy o = true ↔ ∃ s, o = Option.some s ∧ s ≠ "" := by
  cases o with
  | none => simp [strTruthy]
  | some s =>
    constructor
    · intro h
      refine ⟨s, rfl, ?_⟩
      intro hEq
      subst hEq
      exact absurd h (by decide)
    · rintro ⟨u, hEq, hne⟩
      injection hEq with hEq
      subst hEq
      show (!s.isEmpty) = true
      rw [Bool.not_eq_true']
      cases h : s.isEmpty with
      | false => rfl
      | true => exact absurd ((String.isEmpty_iff s).mp h) hne

/-- C8 (amended): the authorizer answers Allow exactly when the secret
was retrieved and the request supplies a nonempty API key (under any of
the three recognised header spellings, with the header-source fallback)
equal to it; in every other case — missing key, empty key, mismatch, or a
failed secret retrieval — it answers Deny, always on the event's route
resource and principal `user`. -/
theorem C8_api_key_gate (env : AuthEnv) (ev : AuthEvent) :
    ((lambda_handler env ev).fst.Effect = "Allow"
        ↔ ∃ v, env.ssm = Except.ok v ∧ apiKeyRaw ev = Option.some v ∧ v ≠ "")
  ∧ ((lambda_handler env ev).fst.Effect = "Allow"
      ∨ (lambda_handler env ev).fst.Effect = "Deny")
  ∧ (lambda_handler env ev).fst.Resource = routeArnOf ev
  ∧ (lambda_handler env ev).fst.principalId = "user" := by
  cases hs : env.ssm with
  | error e =>
    have hl : lambda_handler env ev
        = (generate_policy "user" "Deny" (routeArnOf ev), [LogEntry.ssmError e]) := by
      simp [lambda_handler, hs]
    rw [hl]
    refine ⟨?_, Or.inr rfl, rfl, rfl⟩
    constructor
    · intro h
      simp [generate_policy] at h
    · rintro ⟨v, hv, -⟩
      exact Except.noConfusion hv
  | ok v =>
    cases hcond : strTruthy (apiKeyRaw ev) && (apiKeyRaw ev == Option.some v) with
    | true =>
      have hl : lambda_handler env ev
          = (generate_policy "user" "Allow" (routeArnOf ev), bodyLogs ev.body) := by
        simp only [lambda_handler, hs, hcond, if_pos]
      rcases Bool.and_eq_true_iff.mp hcond with ⟨htr, heq⟩
      have hsv : apiKeyRaw ev = Option.some v := by simpa using heq
      rcases (strTruthy_some_iff (apiKeyRaw ev)).mp htr with ⟨s, hses, hne⟩
      rw [hsv] at hses
      injection hses with hvs
      rw [hl]
      refine ⟨?_, Or.inl rfl, rfl, rfl⟩
      constructor
      · intro _
        exact ⟨v, rfl, hsv, hvs ▸ hne⟩
      · intro _
        rfl
    | false =>
      have hl : lambda_handler env ev
          = (generate_policy "user" "Deny" (routeArnOf ev), []) := by
        simp only [lambda_handler, hs, hcond]
        rfl
      rw [hl]
      refine ⟨?_, Or.inr rfl, rfl, rfl⟩
      constructor
      · intro h
        simp [generate_policy] at h
      · rintro ⟨w, hw, hkey, hne⟩
        injection hw with hw
        subst hw
        have htr : strTruthy (apiKeyRaw ev) = true :=
          (strTruthy_some_iff (apiKeyRaw ev)).mpr ⟨v, hkey, hne⟩
        have heq : (apiKeyRaw ev == Option.some v) = true := by
          rw [hkey]
          simp
        rw [htr, heq] at hcond
        simp at hcond

/-- Counterexample to C8 as stated: with the stored secret being the
empty string and the request supplying an `x-api-key` header equal to it
(also empty), the authorizer answers Deny, because `not api_key` treats
an empty supplied key as missing. -/
theorem C8_counterexample :
    (effectiveHeaders evEmptyKey).lookup "x-api-key" = Option.some ""
  ∧ (lambda_handler ⟨Except.ok ""⟩ evEmptyKey).fst.Effect = "Deny" := by
  exact ⟨rfl, rfl⟩

/-- Witness for C8 at a matching nonempty key. -/
theorem C8_witness :
    (lambda_handler ⟨Except.ok "sek"⟩ evAllow).fst.Effect = "Allow" :=
  (C8_api_key_gate ⟨Except.ok "sek"⟩ evAllow).1.mpr
    ⟨"sek", rfl, by decide, by decide⟩

/-- C10: with a valid key, the returned policy is Allow whatever the
request body holds — an undecodable body or one missing required survey
fields only produces a diagnostic log entry and is still let through. -/
theorem C10_body_never_blocks (env : AuthEnv) (ev : AuthEvent) (v : String)
    (hs : env.ssm = Except.ok v) (hk : apiKeyRaw ev = Option.some v)
    (hne : v ≠ "") :
    (∀ b, (lambda_handler env { ev with body := b }).fst
        = generate_policy "user" "Allow" (routeArnOf ev))
  ∧ (∀ b, (lambda_handler env { ev with body := b }).snd = bodyLogs b)
  ∧ (lambda_handler env { ev with body := AuthBody.invalidJson }).snd
      = [LogEntry.invalidJson] := by
  have hk' : ∀ b, apiKeyRaw { ev with body := b } = Option.some v := fun b => hk
  have hcond : ∀ b, (strTruthy (apiKeyRaw { ev with body := b })
      && (apiKeyRaw { ev with body := b } == Option.some v)) = true := by
    intro b
    rw [hk' b]
    have htr : strTruthy (Option.some v) = true :=
      (strTruthy_some_iff (Option.some v)).mpr ⟨v, rfl, hne⟩
    rw [htr]
    simp
  refine ⟨?_, ?_, ?_⟩
  · intro b
    simp only [lambda_handler, hs, hcond b, if_pos]
    rfl
  · intro b
    simp only [lambda_handler, hs, hcond b, if_pos]
  · simp only [lambda_handler, hs, hcond AuthBody.invalidJson, if_pos]
    rfl

/-- Witness for C10: a valid key with an undecodable body is allowed. -/
theorem C10_witness :
    (lambda_handler ⟨Except.ok "sek"⟩ { evAllow with body := AuthBody.invalidJson }).fst
      = generate_policy "user" "Allow" (routeArnOf evAllow) :=
  (C10_body_never_blocks ⟨Except.ok "sek"⟩ evAllow "sek" rfl (by decide)
    (by decide)).1 AuthBody.invalidJson

end Authorizer

end SurveyDemo
